import Mathlib

/-!
Shallow embedding of the spellbound-kids puzzle core
(src/spellbound-kids/App.tsx and src/spellbound-kids/services/geminiService.ts).

Modelling conventions:
* A JS string is a Lean `String`; a single letter is a `Char`.
  JS string indexing `word[i]` may yield `undefined`, so a word is a
  `List Char` and indexing is `List.get?` (an `Option Char`).
* The JS record `userAnswers : Record<number, string>` (slot index → choice id)
  is an association list `List (Nat × String)` with the record's lookup,
  delete and set operations; operations are translated from the source so the
  key-uniqueness of a JS record is maintained by construction.
* JS truthiness tests on `string | null | undefined` values
  (`if (url)`, `if (selectedChoiceId)`, `userAnswers[idx]` in a condition)
  are `truthyStr : Option String → Bool` (false exactly on `none` and `""`).
* The `char` field of a `Choice` is `Option Char` because the source builds it
  from `puzzle.word[i]`, which is `undefined` when `i` is out of range; the
  verifier's `===` comparison of two possibly-undefined one-character strings
  is `==` on `Option Char` (`undefined === undefined` is `true` in JS, as is
  `none == none`).
* `Math.random()`-driven draws are abstracted as an input `rand : Nat → Char`
  (the draw `ALPHABET[Math.floor(Math.random()*ALPHABET.length)]` always
  yields one character); `Date.now()` is an input `now : Nat`; the
  `.sort(() => Math.random() - 0.5)` shuffle is an arbitrary permutation of
  the built list, quantified via `List.Perm` in the theorems.
-/

/-- The transient feedback state from App.tsx line 17:
`'none' | 'correct' | 'incorrect'`. -/
inductive Feedback where
  | none
  | correct
  | incorrect
deriving DecidableEq

/-- The session status from types.ts:
`'idle' | 'loading' | 'playing' | 'success' | 'error'`. -/
inductive Status where
  | idle
  | loading
  | playing
  | success
  | error
deriving DecidableEq

/-- A pool tile, from types.ts `Choice { id: string; char: string }`.
`char` is `Option Char` because the source may store `word[i]` with `i` out of
range (JS `undefined`). -/
structure Choice where
  id : String
  char : Option Char
deriving DecidableEq

/-- A puzzle, from types.ts `PuzzleData`. -/
structure PuzzleData where
  word : List Char
  missingIndices : List Nat
  hint : String
deriving DecidableEq

/-- The slot→tile-id mapping `userAnswers : Record<number, string>`. -/
abbrev Assignment := List (Nat × String)

/-- The `GameState` record from types.ts. -/
structure GameState where
  status : Status
  puzzle : Option PuzzleData
  imageUrl : Option String
  choices : List Choice
  userAnswers : Assignment
  errorMessage : Option String
deriving DecidableEq

/-- The App component state: `gameState` plus the separate `feedback` and
`selectedChoiceId` useState cells (App.tsx lines 9-18). -/
structure AppState where
  game : GameState
  feedback : Feedback
  selectedChoiceId : Option String
deriving DecidableEq

/-- JS truthiness of a `string | null | undefined` value: `null`/`undefined`
and `""` are falsy, every other string is truthy. -/
def truthyStr : Option String → Bool
  | Option.none => false
  | Option.some s => !(s == "")

/-- JS record lookup `answers[k]`: the value at key `k`, if present. -/
def lookupSlot : Assignment → Nat → Option String
  | [], _ => Option.none
  | (k, v) :: rest, s => if k == s then Option.some v else lookupSlot rest s

/-- JS `delete answers[k]`: drop the entry at key `k`. -/
def removeKey (a : Assignment) (k : Nat) : Assignment :=
  a.filter (fun p => !(p.1 == k))

/-- JS `answers[k] = v`: bind key `k` to `v`, overwriting any previous entry. -/
def setKey (a : Assignment) (k : Nat) (v : String) : Assignment :=
  removeKey a k ++ [(k, v)]

/-- The assignment part of `placeLetter` (App.tsx lines 77-89): every entry
whose value is `choiceId` is deleted, then `slotIndex` is bound to
`choiceId`. -/
def placeLetterAnswers (answers : Assignment) (slotIndex : Nat) (choiceId : String) :
    Assignment :=
  setKey (answers.filter (fun p => !(p.2 == choiceId))) slotIndex choiceId

/-- `placeLetter` (App.tsx lines 77-97): updates `userAnswers`, clears
feedback, clears the selection. -/
def placeLetter (st : AppState) (slotIndex : Nat) (choiceId : String) : AppState :=
  { st with
    game := { st.game with
      userAnswers := placeLetterAnswers st.game.userAnswers slotIndex choiceId }
    feedback := Feedback.none
    selectedChoiceId := Option.none }

/-- `removeLetter` (App.tsx lines 99-104): deletes the slot's entry and clears
feedback. -/
def removeLetter (st : AppState) (slotIndex : Nat) : AppState :=
  { st with
    game := { st.game with
      userAnswers := removeKey st.game.userAnswers slotIndex }
    feedback := Feedback.none }

/-- `handleSlotClick` (App.tsx lines 133-142): if a choice is selected, place
it; else if the slot is filled, remove its occupant; else do nothing. -/
def handleSlotClick (st : AppState) (slotIndex : Nat) : AppState :=
  if truthyStr st.selectedChoiceId then
    placeLetter st slotIndex (st.selectedChoiceId.getD "")
  else if truthyStr (lookupSlot st.game.userAnswers slotIndex) then
    removeLetter st slotIndex
  else st

/-- `handleChoiceClick` (App.tsx lines 121-131): a placed choice is not
selectable; otherwise clicking toggles/replaces the selection. -/
def handleChoiceClick (st : AppState) (choiceId : String) : AppState :=
  if (st.game.userAnswers.map (fun p => p.2)).contains choiceId then st
  else if st.selectedChoiceId == Option.some choiceId then
    { st with selectedChoiceId := Option.none }
  else
    { st with selectedChoiceId := Option.some choiceId }

/-- The `allFilled` check of `checkAnswer` (App.tsx line 150):
`missingIndices.every(idx => userAnswers[idx])` — a JS truthiness test. -/
def allFilled (p : PuzzleData) (answers : Assignment) : Bool :=
  p.missingIndices.all (fun idx => truthyStr (lookupSlot answers idx))

/-- `gameState.choices.find(c => c.id === choiceId)` where `choiceId` may be
`undefined` (App.tsx line 159); `id === undefined` is false for every tile. -/
def findChoice (choices : List Choice) (choiceId : Option String) : Option Choice :=
  match choiceId with
  | Option.none => Option.none
  | Option.some cid => choices.find? (fun c => c.id == cid)

/-- The letter resolved for a slot by the verifier: `choice?.char`
(App.tsx line 160), `undefined` when the choice is missing. -/
def boundLetter (choices : List Choice) (answers : Assignment) (idx : Nat) :
    Option Char :=
  (findChoice choices (lookupSlot answers idx)).bind (fun c => c.char)

/-- The `isCorrect` conjunction of `checkAnswer` (App.tsx lines 157-161):
for every missing index, `choice?.char === word[index]`. -/
def isCorrect (p : PuzzleData) (choices : List Choice) (answers : Assignment) : Bool :=
  p.missingIndices.all (fun idx => boundLetter choices answers idx == p.word.get? idx)

/-- `checkAnswer` (App.tsx lines 144-169): no-op without a puzzle; sets
`incorrect` feedback when not all slots are filled; on a filled board sets
`correct` feedback and `success` status, or `incorrect` feedback. -/
def checkAnswer (st : AppState) : AppState :=
  match st.game.puzzle with
  | Option.none => st
  | Option.some p =>
    if !(allFilled p st.game.userAnswers) then
      { st with feedback := Feedback.incorrect }
    else if isCorrect p st.game.choices st.game.userAnswers then
      { st with
        feedback := Feedback.correct
        game := { st.game with status := Status.success } }
    else
      { st with feedback := Feedback.incorrect }

/-- The tile id `` `choice-${i}-${Date.now()}` `` of App.tsx line 50, with the
clock reading an input. -/
def mkId (i : Nat) (now : Nat) : String :=
  ("choice-" ++ toString i ++ "-") ++ toString now

/-- `puzzle.missingIndices.map(i => puzzle.word[i])` (App.tsx line 38); an
out-of-range index yields `undefined`. -/
def correctLetters (p : PuzzleData) : List (Option Char) :=
  p.missingIndices.map (fun i => p.word.get? i)

/-- Pool construction before the shuffle (App.tsx lines 38-50): the correct
letters, then `6 - correctLetters.length` distractor draws (the JS loop runs
zero times when that is negative, matching `Nat` subtraction), each letter
paired with a fresh id from its position. -/
def buildPool (p : PuzzleData) (rand : Nat → Char) (now : Nat) : List Choice :=
  let cs := correctLetters p
  let lettersNeeded := 6 - cs.length
  let distractors := (List.range lettersNeeded).map (fun i => Option.some (rand i))
  ((cs ++ distractors).enum).map (fun q => { id := mkId q.1 now, char := q.2 })

/-- The validation step of `generatePuzzle` (geminiService.ts lines 66-68):
the word is uppercased and the missing indices are filtered to be in range
(the JS filter also drops negatives, which `Nat` indices cannot encode). -/
def sanitizePuzzle (d : PuzzleData) : PuzzleData :=
  let w := d.word.map Char.toUpper
  { word := w
    missingIndices := d.missingIndices.filter (fun i => i < w.length)
    hint := d.hint }

/-- The reset at the top of `startNewRound` (App.tsx lines 22-31): status
`loading`, answers, puzzle, image and pool cleared, feedback and selection
cleared. -/
def resetForLoading (st : AppState) : AppState :=
  { game := { st.game with
      status := Status.loading
      userAnswers := []
      puzzle := Option.none
      imageUrl := Option.none
      choices := [] }
    feedback := Feedback.none
    selectedChoiceId := Option.none }

/-- The state update after the puzzle and pool are built
(App.tsx lines 53-58). -/
def applyNewPuzzle (st : AppState) (p : PuzzleData) (pool : List Choice) : AppState :=
  { st with game := { st.game with
      puzzle := Option.some p
      choices := pool
      userAnswers := [] } }

/-- App.tsx line 67: the round becomes playable. -/
def setPlaying (st : AppState) : AppState :=
  { st with game := { st.game with status := Status.playing } }

/-- The illustration callback (App.tsx lines 61-65): when the resolved `url`
is truthy it is written into the CURRENT state, with no round tag and no
staleness check. -/
def imageArrives (st : AppState) (url : Option String) : AppState :=
  if truthyStr url then { st with game := { st.game with imageUrl := url } }
  else st

/-- The successful path of `startNewRound` (App.tsx lines 21-67 without the
image callback): reset, fetch and sanitize the puzzle, build and shuffle the
pool, install the puzzle, start playing. `shuffle` stands for the
`.sort(() => Math.random() - 0.5)` permutation. -/
def startRoundSuccess (st : AppState) (raw : PuzzleData) (rand : Nat → Char)
    (now : Nat) (shuffle : List Choice → List Choice) : AppState :=
  let p := sanitizePuzzle raw
  setPlaying (applyNewPuzzle (resetForLoading st) p (shuffle (buildPool p rand now)))

/-- A `place`/`remove` call on the assignment store. -/
inductive AssignOp where
  | place (slot : Nat) (choiceId : String)
  | remove (slot : Nat)

/-- The effect of one operation on the assignment (App.tsx lines 77-104). -/
def applyAssignOp (a : Assignment) : AssignOp → Assignment
  | AssignOp.place s c => placeLetterAnswers a s c
  | AssignOp.remove s => removeKey a s

/-- The assignment after a finite sequence of operations from the empty
assignment of round start. -/
def runAssignOps (ops : List AssignOp) : Assignment :=
  ops.foldl applyAssignOp []

/-- The slots an assignment binds to a given tile id. -/
def slotsBoundTo (a : Assignment) (cid : String) : List Nat :=
  (a.filter (fun p => p.2 == cid)).map (fun p => p.1)

/-- Spec-side comparison for the verifier: compare the two letters after
case-normalizing both to uppercase. -/
def normEq (a b : Option Char) : Bool :=
  (a.map Char.toUpper) == (b.map Char.toUpper)

example :
    placeLetterAnswers [(0, "a"), (2, "b")] 1 "b" = [(0, "a"), (1, "b")] := by
  decide

example : lookupSlot (placeLetterAnswers [(0, "a")] 0 "b") 0 = Option.some "b" := by
  decide

example :
    (buildPool { word := ['C', 'A', 'T'], missingIndices := [1], hint := "" }
        (fun _ => 'Z') 7).length = 6 := by
  decide

example :
    (buildPool { word := ['C', 'A', 'T'], missingIndices := [1], hint := "" }
        (fun _ => 'Z') 7).map (fun c => c.char) =
      [Option.some 'A', Option.some 'Z', Option.some 'Z', Option.some 'Z',
        Option.some 'Z', Option.some 'Z'] := by
  decide

example :
    sanitizePuzzle { word := ['c', 'a', 't'], missingIndices := [1, 5], hint := "h" } =
      { word := ['C', 'A', 'T'], missingIndices := [1], hint := "h" } := by
  decide

/-! ### Helper lemmas about the assignment store -/

theorem length_filter_filter_le {α : Type} (l : List α) (q r : α → Bool) :
    ((l.filter q).filter r).length ≤ (l.filter r).length :=
  List.Sublist.length_le (List.Sublist.filter r (List.filter_sublist l))

theorem slotsBoundTo_append (l₁ l₂ : Assignment) (cid : String) :
    slotsBoundTo (l₁ ++ l₂) cid = slotsBoundTo l₁ cid ++ slotsBoundTo l₂ cid := by
  simp [slotsBoundTo, List.filter_append]

theorem slotsBoundTo_filter_le (a : Assignment) (q : Nat × String → Bool)
    (cid : String) :
    (slotsBoundTo (a.filter q) cid).length ≤ (slotsBoundTo a cid).length := by
  simp only [slotsBoundTo, List.length_map]
  exact length_filter_filter_le a q _

theorem slotsBoundTo_place_self (a : Assignment) (s : Nat) (c : String) :
    slotsBoundTo (placeLetterAnswers a s c) c = [s] := by
  have hnil :
      ((a.filter (fun p => !(p.2 == c))).filter (fun p => !(p.1 == s))).filter
        (fun p => p.2 == c) = [] := by
    rw [List.filter_eq_nil_iff]
    intro p hp
    have hp₁ : p ∈ a.filter (fun p => !(p.2 == c)) := List.mem_of_mem_filter hp
    have := List.of_mem_filter hp₁
    simpa using this
  simp only [placeLetterAnswers, setKey, removeKey, slotsBoundTo,
    List.filter_append, List.map_append, hnil]
  simp [List.filter_cons]

theorem slotsBoundTo_place_other (a : Assignment) (s : Nat) (c cid : String)
    (hne : cid ≠ c) :
    (slotsBoundTo (placeLetterAnswers a s c) cid).length ≤
      (slotsBoundTo a cid).length := by
  have hpair : ((c : String) == cid) = false := by
    simp [beq_eq_false_iff_ne]
    exact fun h => hne h.symm
  simp only [placeLetterAnswers, setKey, removeKey, slotsBoundTo,
    List.filter_append, List.map_append, List.length_append, List.length_map]
  have h₁ := length_filter_filter_le (a.filter (fun p => !(p.2 == c)))
    (fun p => !(p.1 == s)) (fun p => p.2 == cid)
  have h₂ := length_filter_filter_le a (fun p => !(p.2 == c))
    (fun p => p.2 == cid)
  have h₃ : (List.filter (fun p => p.2 == cid) [((s : Nat), c)]).length = 0 := by
    simp [List.filter_cons, hpair]
  omega

theorem place_preserves_single (a : Assignment) (s : Nat) (c : String)
    (h : ∀ cid, (slotsBoundTo a cid).length ≤ 1) :
    ∀ cid, (slotsBoundTo (placeLetterAnswers a s c) cid).length ≤ 1 := by
  intro cid
  by_cases hc : cid = c
  · subst hc
    rw [slotsBoundTo_place_self]
    simp
  · exact le_trans (slotsBoundTo_place_other a s c cid hc) (h cid)

theorem remove_preserves_single (a : Assignment) (s : Nat)
    (h : ∀ cid, (slotsBoundTo a cid).length ≤ 1) :
    ∀ cid, (slotsBoundTo (removeKey a s) cid).length ≤ 1 := by
  intro cid
  exact le_trans (slotsBoundTo_filter_le a _ cid) (h cid)

theorem foldl_preserves_single (ops : List AssignOp) :
    ∀ a : Assignment, (∀ cid, (slotsBoundTo a cid).length ≤ 1) →
      ∀ cid, (slotsBoundTo (ops.foldl applyAssignOp a) cid).length ≤ 1 := by
  induction ops with
  | nil => intro a h; exact h
  | cons op rest ih =>
    intro a h
    apply ih
    cases op with
    | place s c => exact place_preserves_single a s c h
    | remove s => exact remove_preserves_single a s h

/-- C1: for every finite sequence of place/remove operations starting from the
empty assignment, each tile id is bound to at most one slot — the
single-slot-per-tile invariant is maintained because `placeLetter` first
deletes every slot currently bound to the tile id before binding the new
slot. -/
theorem C1_single_slot_per_tile (ops : List AssignOp) (cid : String) :
    (slotsBoundTo (runAssignOps ops) cid).length ≤ 1 := by
  apply foldl_preserves_single
  intro cid'
  simp [slotsBoundTo]

/-! ### Concrete fixtures (the spec's "CAT" example) -/

/-- The correct tile of the spec's verifier example. -/
def tA : Choice := { id := "t1", char := Option.some 'A' }

/-- The distractor tile of the spec's verifier example. -/
def tX : Choice := { id := "t2", char := Option.some 'X' }

/-- The puzzle of the spec's verifier example: word CAT, position 1 hidden. -/
def pCAT : PuzzleData := { word := ['C', 'A', 'T'], missingIndices := [1], hint := "a pet" }

/-- A playing-state over `pCAT` with pool `[tA, tX]` and a given assignment. -/
def gameCAT (answers : Assignment) : AppState :=
  { game := { status := Status.playing
              puzzle := Option.some pCAT
              imageUrl := Option.none
              choices := [tA, tX]
              userAnswers := answers
              errorMessage := Option.none }
    feedback := Feedback.none
    selectedChoiceId := Option.none }

/-! ### Helper lemmas about the verifier -/

theorem boundLetter_mem_pool (choices : List Choice) (answers : Assignment)
    (idx : Nat) (a : Char)
    (h : boundLetter choices answers idx = Option.some a) :
    ∃ t ∈ choices, t.char = Option.some a := by
  unfold boundLetter at h
  cases hl : lookupSlot answers idx with
  | none => rw [hl] at h; simp [findChoice] at h
  | some cid =>
    rw [hl] at h
    cases hf : choices.find? (fun c => c.id == cid) with
    | none => simp [findChoice, hf] at h
    | some t =>
      simp only [findChoice, hf, Option.some_bind] at h
      exact ⟨t, List.mem_of_find?_eq_some hf, h⟩

theorem isCorrect_iff (p : PuzzleData) (choices : List Choice)
    (answers : Assignment) :
    isCorrect p choices answers = true ↔
      ∀ i ∈ p.missingIndices, boundLetter choices answers i = p.word.get? i := by
  simp [isCorrect, List.all_eq_true]

/-- C2: on a fully bound assignment, the verifier's correct result is exactly
the conjunction, over all missing positions, of the comparison between the
bound tile's letter and the word's letter, and — because the puzzle word is
stored uppercase and the pool letters are uppercase — this comparison
coincides with the case-normalized comparison. -/
theorem C2_verifier_case_normalized (st : AppState) (p : PuzzleData)
    (hp : st.game.puzzle = Option.some p)
    (hword : ∀ c ∈ p.word, c.toUpper = c)
    (hpool : ∀ t ∈ st.game.choices, t.char.map Char.toUpper = t.char)
    (hfull : allFilled p st.game.userAnswers = true) :
    (checkAnswer st).feedback = Feedback.correct ↔
      ∀ i ∈ p.missingIndices,
        normEq (boundLetter st.game.choices st.game.userAnswers i)
          (p.word.get? i) = true := by
  have hred : (checkAnswer st).feedback = Feedback.correct ↔
      isCorrect p st.game.choices st.game.userAnswers = true := by
    simp only [checkAnswer, hp, hfull, Bool.not_true, Bool.false_eq_true,
      if_false]
    by_cases h : isCorrect p st.game.choices st.game.userAnswers = true <;>
      simp [h]
  rw [hred, isCorrect_iff]
  constructor
  · intro h i hi
    rw [h i hi]
    simp [normEq]
  · intro h i hi
    have hn := h i hi
    simp only [normEq, beq_iff_eq] at hn
    cases hb : boundLetter st.game.choices st.game.userAnswers i with
    | none =>
      cases hw : p.word.get? i with
      | none => rfl
      | some w => rw [hb, hw] at hn; simp at hn
    | some a =>
      cases hw : p.word.get? i with
      | none => rw [hb, hw] at hn; simp at hn
      | some w =>
        rw [hb, hw] at hn
        simp only [Option.map_some', Option.some.injEq] at hn
        have ha : a.toUpper = a := by
          obtain ⟨t, ht, hc⟩ := boundLetter_mem_pool _ _ _ _ hb
          have := hpool t ht
          rw [hc] at this
          simpa using this
        have hwu : w.toUpper = w := hword w (List.get?_mem hw)
        have haw : a = w := by
          rw [ha, hwu] at hn
          exact hn
        rw [haw]

/-- Witness for C2, the spec's own example: word CAT, missing position 1,
assignment binding slot 1 to the tile carrying A. -/
theorem C2_verifier_case_normalized_witness :
    (checkAnswer (gameCAT [(1, "t1")])).feedback = Feedback.correct ↔
      ∀ i ∈ pCAT.missingIndices,
        normEq (boundLetter (gameCAT [(1, "t1")]).game.choices
            (gameCAT [(1, "t1")]).game.userAnswers i)
          (pCAT.word.get? i) = true :=
  C2_verifier_case_normalized (gameCAT [(1, "t1")]) pCAT rfl (by decide)
    (by decide) (by decide)

/-- C3 counterexample: an incomplete submission (word CAT, missing position 1,
empty assignment) and a complete-but-wrong submission (slot 1 bound to the X
tile) are reported with the very same `incorrect` feedback value — the
"incomplete" rejection is NOT distinct from the "wrong letter" report. -/
theorem C3_counterexample_same_feedback :
    (checkAnswer (gameCAT [])).feedback = Feedback.incorrect ∧
    (checkAnswer (gameCAT [(1, "t2")])).feedback = Feedback.incorrect ∧
    (checkAnswer (gameCAT [])).feedback =
      (checkAnswer (gameCAT [(1, "t2")])).feedback ∧
    (checkAnswer (gameCAT [])).game.status = Status.playing := by
  decide

/-- C3 (amended): whenever any required missing position is unbound, a verify
request leaves the status unchanged (no transition to solved) and sets the
`incorrect` feedback — which is the same feedback value produced by a
complete-but-wrong submission, so the rejection carries no distinct
"incomplete" report. -/
theorem C3_incomplete_no_solve_same_feedback (st : AppState) (p : PuzzleData)
    (hp : st.game.puzzle = Option.some p)
    (hnf : allFilled p st.game.userAnswers = false) :
    (checkAnswer st).game.status = st.game.status ∧
    (checkAnswer st).feedback = Feedback.incorrect ∧
    ∀ st' : AppState, ∀ p' : PuzzleData, st'.game.puzzle = Option.some p' →
      allFilled p' st'.game.userAnswers = true →
      isCorrect p' st'.game.choices st'.game.userAnswers = false →
      (checkAnswer st').feedback = (checkAnswer st).feedback := by
  refine ⟨?_, ?_, ?_⟩
  · simp [checkAnswer, hp, hnf]
  · simp [checkAnswer, hp, hnf]
  · intro st' p' hp' hfull' hwrong'
    simp [checkAnswer, hp, hnf, hp', hfull', hwrong']

/-- Witness for the amended C3 at the concrete CAT states. -/
theorem C3_incomplete_no_solve_same_feedback_witness :
    (checkAnswer (gameCAT [])).game.status = (gameCAT []).game.status ∧
    (checkAnswer (gameCAT [])).feedback = Feedback.incorrect ∧
    (checkAnswer (gameCAT [(1, "t2")])).feedback =
      (checkAnswer (gameCAT [])).feedback := by
  have h := C3_incomplete_no_solve_same_feedback (gameCAT []) pCAT rfl (by decide)
  exact ⟨h.1, h.2.1, h.2.2 (gameCAT [(1, "t2")]) pCAT rfl (by decide) (by decide)⟩

/-- C4: in the playing state, verifying a complete-and-correct assignment
moves the session to success; verifying a complete-and-incorrect assignment
keeps the session playing with the `incorrect` feedback set, and that
feedback is cleared (set back to `none`) by the next placement or removal. -/
theorem C4_verify_transitions (st : AppState) (p : PuzzleData)
    (hp : st.game.puzzle = Option.some p)
    (hact : st.game.status = Status.playing)
    (hfull : allFilled p st.game.userAnswers = true) :
    (isCorrect p st.game.choices st.game.userAnswers = true →
      (checkAnswer st).game.status = Status.success ∧
      (checkAnswer st).feedback = Feedback.correct) ∧
    (isCorrect p st.game.choices st.game.userAnswers = false →
      (checkAnswer st).game.status = Status.playing ∧
      (checkAnswer st).feedback = Feedback.incorrect ∧
      (∀ slot cid,
        (placeLetter (checkAnswer st) slot cid).feedback = Feedback.none) ∧
      (∀ slot,
        (removeLetter (checkAnswer st) slot).feedback = Feedback.none)) := by
  constructor
  · intro h
    constructor <;> simp [checkAnswer, hp, hfull, h]
  · intro h
    refine ⟨?_, ?_, ?_, ?_⟩
    · simp [checkAnswer, hp, hfull, h, hact]
    · simp [checkAnswer, hp, hfull, h]
    · intro slot cid; simp [placeLetter]
    · intro slot; simp [removeLetter]

/-- Witness for C4: the correct CAT submission solves the round; the wrong
one stays playing with `incorrect` feedback, cleared by the next place or
remove. -/
theorem C4_verify_transitions_witness :
    (checkAnswer (gameCAT [(1, "t1")])).game.status = Status.success ∧
    (checkAnswer (gameCAT [(1, "t2")])).game.status = Status.playing ∧
    (checkAnswer (gameCAT [(1, "t2")])).feedback = Feedback.incorrect ∧
    (placeLetter (checkAnswer (gameCAT [(1, "t2")])) 1 "t1").feedback =
      Feedback.none ∧
    (removeLetter (checkAnswer (gameCAT [(1, "t2")])) 1).feedback =
      Feedback.none := by
  have hok :=
    (C4_verify_transitions (gameCAT [(1, "t1")]) pCAT rfl rfl (by decide)).1
      (by decide)
  have hbad :=
    (C4_verify_transitions (gameCAT [(1, "t2")]) pCAT rfl rfl (by decide)).2
      (by decide)
  exact ⟨hok.1, hbad.1, hbad.2.1, hbad.2.2.1 1 "t1", hbad.2.2.2 1⟩

/-! ### Helper lemmas about pool construction -/

theorem mkId_inj (now : Nat) {i j : Nat} (hi : i < 6) (hj : j < 6)
    (h : mkId i now = mkId j now) : i = j := by
  unfold mkId at h
  have hd := congrArg String.data h
  simp only [String.data_append, List.append_assoc] at hd
  have h1 := List.append_cancel_left hd
  have h2 := List.append_cancel_right h1
  interval_cases i <;> interval_cases j <;>
    first
      | rfl
      | exact absurd h2 (by decide)

theorem buildPool_chars (p : PuzzleData) (rand : Nat → Char) (now : Nat) :
    (buildPool p rand now).map (fun t => t.char) =
      correctLetters p ++
        (List.range (6 - (correctLetters p).length)).map
          (fun i => Option.some (rand i)) := by
  unfold buildPool
  rw [List.map_map]
  have : ((fun t => t.char) ∘ fun q : Nat × Option Char =>
      ({ id := mkId q.1 now, char := q.2 } : Choice)) = Prod.snd := by
    funext q; rfl
  rw [this, List.enum_map_snd]

theorem buildPool_ids (p : PuzzleData) (rand : Nat → Char) (now : Nat) :
    (buildPool p rand now).map (fun t => t.id) =
      (List.range
        (correctLetters p ++
          (List.range (6 - (correctLetters p).length)).map
            (fun i => Option.some (rand i))).length).map (fun i => mkId i now) := by
  unfold buildPool
  rw [List.map_map]
  have : ((fun t => t.id) ∘ fun q : Nat × Option Char =>
      ({ id := mkId q.1 now, char := q.2 } : Choice)) =
      (fun i => mkId i now) ∘ Prod.fst := by
    funext q; rfl
  rw [this, ← List.map_map, List.enum_map_fst]

theorem buildPool_length (p : PuzzleData) (rand : Nat → Char) (now : Nat)
    (hk : p.missingIndices.length ≤ 6) :
    (buildPool p rand now).length = 6 := by
  have h := congrArg List.length (buildPool_chars p rand now)
  simp only [List.length_map, List.length_append, List.length_range,
    correctLetters] at h ⊢
  omega

/-- C5: for any puzzle with at most 6 missing positions (the fixed target
pool size of the code), the shuffled pool has exactly 6 tiles, every correct
letter needed to solve the puzzle occurs on at least one tile, and the tile
ids are pairwise distinct. -/
theorem C5_pool_composition (p : PuzzleData) (rand : Nat → Char) (now : Nat)
    (pool : List Choice)
    (hk : p.missingIndices.length ≤ 6)
    (hperm : pool.Perm (buildPool p rand now)) :
    pool.length = 6 ∧
    (∀ i ∈ p.missingIndices, ∃ t ∈ pool, t.char = p.word.get? i) ∧
    (pool.map (fun t => t.id)).Nodup := by
  refine ⟨?_, ?_, ?_⟩
  · rw [hperm.length_eq]
    exact buildPool_length p rand now hk
  · intro i hi
    have hc : p.word.get? i ∈ (buildPool p rand now).map (fun t => t.char) := by
      rw [buildPool_chars]
      exact List.mem_append_left _
        (List.mem_map_of_mem (fun i => p.word.get? i) hi)
    obtain ⟨t, ht, hchar⟩ := List.mem_map.mp hc
    exact ⟨t, hperm.mem_iff.mpr ht, hchar⟩
  · rw [((hperm.map (fun t => t.id)).nodup_iff)]
    rw [buildPool_ids]
    have hlen :
        (correctLetters p ++
          (List.range (6 - (correctLetters p).length)).map
            (fun i => Option.some (rand i))).length = 6 := by
      simp only [List.length_append, List.length_map, List.length_range,
        correctLetters]
      omega
    rw [hlen]
    refine List.Nodup.map_on ?_ (List.nodup_range 6)
    intro x hx y hy hxy
    exact mkId_inj now (List.mem_range.mp hx) (List.mem_range.mp hy) hxy

/-- Witness for C5 at the CAT puzzle with a constant distractor draw, clock 7
and the identity shuffle. -/
theorem C5_pool_composition_witness :
    (buildPool pCAT (fun _ => 'Z') 7).length = 6 ∧
    (∀ i ∈ pCAT.missingIndices, ∃ t ∈ buildPool pCAT (fun _ => 'Z') 7,
      t.char = pCAT.word.get? i) ∧
    ((buildPool pCAT (fun _ => 'Z') 7).map (fun t => t.id)).Nodup :=
  C5_pool_composition pCAT (fun _ => 'Z') 7 (buildPool pCAT (fun _ => 'Z') 7)
    (by decide) (List.Perm.refl _)

/-! ### Fixtures for the round-lifecycle claims -/

/-- A puzzle whose number of missing positions (7) exceeds the target pool
size (6). -/
def pGIRAFFE : PuzzleData :=
  { word := ['G', 'I', 'R', 'A', 'F', 'F', 'E']
    missingIndices := [0, 1, 2, 3, 4, 5, 6]
    hint := "an animal" }

/-- A second puzzle, for the two-round staleness scenario. -/
def pDOG : PuzzleData := { word := ['D', 'O', 'G'], missingIndices := [1], hint := "a pet" }

/-- The initial idle state of the App component (App.tsx lines 9-18). -/
def idleState : AppState :=
  { game := { status := Status.idle
              puzzle := Option.none
              imageUrl := Option.none
              choices := []
              userAnswers := []
              errorMessage := Option.none }
    feedback := Feedback.none
    selectedChoiceId := Option.none }

/-- A Puzzle-Source value violating the contract: `missingPositions = [5]` is
not a subset of the valid indices of the three-letter word, and the word is
not stored uppercase. -/
def rawBad : PuzzleData := { word := ['c', 'a', 't'], missingIndices := [5], hint := "h" }

/-- Round R of the staleness scenario. -/
def roundR : AppState := startRoundSuccess idleState pCAT (fun _ => 'Z') 0 id

/-- Round R+1 of the staleness scenario, started while round R's illustration
task is still outstanding. -/
def roundR1 : AppState := startRoundSuccess roundR pDOG (fun _ => 'Z') 1 id

/-- C6 counterexample: on a puzzle with 7 missing positions — more than the
target pool size 6 — pool construction does not fail with any
ConfigurationError: it produces a pool (of 7 tiles) and the round starts
normally. No failure path exists in the code. -/
theorem C6_counterexample_pool_produced :
    (buildPool pGIRAFFE (fun _ => 'Z') 0).length = 7 ∧
    (startRoundSuccess idleState pGIRAFFE (fun _ => 'Z') 0 id).game.status =
      Status.playing ∧
    (startRoundSuccess idleState pGIRAFFE (fun _ => 'Z') 0 id).game.choices.length =
      7 := by
  decide

/-- C6 (amended): pool construction never fails; when the number of missing
positions exceeds the target size 6, the distractor loop runs zero times and
the pool consists of exactly the correct-letter tiles, one per missing
position, so its length is the number of missing positions (exceeding 6). -/
theorem C6_oversized_missing_correct_only (p : PuzzleData) (rand : Nat → Char)
    (now : Nat) (hk : 6 < p.missingIndices.length) :
    (buildPool p rand now).length = p.missingIndices.length ∧
    (buildPool p rand now).map (fun t => t.char) = correctLetters p := by
  have hc := buildPool_chars p rand now
  have h6 : 6 - (correctLetters p).length = 0 := by
    simp only [correctLetters, List.length_map]
    omega
  rw [h6] at hc
  simp only [List.range_zero, List.map_nil, List.append_nil] at hc
  refine ⟨?_, hc⟩
  have := congrArg List.length hc
  simp only [List.length_map, correctLetters] at this
  simpa using this

/-- Witness for the amended C6 at the 7-missing-position puzzle. -/
theorem C6_oversized_missing_correct_only_witness :
    (buildPool pGIRAFFE (fun _ => 'Z') 0).length = pGIRAFFE.missingIndices.length ∧
    (buildPool pGIRAFFE (fun _ => 'Z') 0).map (fun t => t.char) =
      correctLetters pGIRAFFE :=
  C6_oversized_missing_correct_only pGIRAFFE (fun _ => 'Z') 0 (by decide)

/-- C7 counterexample: after round R (word CAT) is superseded by round R+1
(word DOG), round R's illustration result arriving late is written into the
round R+1 state: its image field changes from `none` to round R's URL. No
round identity is attached and nothing is discarded. -/
theorem C7_counterexample_stale_applied :
    roundR1.game.puzzle = Option.some (sanitizePuzzle pDOG) ∧
    roundR1.game.imageUrl = Option.none ∧
    (imageArrives roundR1 (Option.some "cat.png")).game.imageUrl =
      Option.some "cat.png" := by
  decide

/-- C7 (amended): illustration results carry no round identity and stale
results are not discarded — any truthy URL delivered to the callback is
written into the current state's image field, even if the session has since
advanced to a newer round. -/
theorem C7_image_applied_unconditionally (st : AppState) (u : String)
    (hu : u ≠ "") :
    (imageArrives st (Option.some u)).game.imageUrl = Option.some u := by
  simp [imageArrives, truthyStr, hu]

/-- Witness for the amended C7: the stale CAT illustration lands in the DOG
round's state. -/
theorem C7_image_applied_unconditionally_witness :
    (imageArrives roundR1 (Option.some "cat.png")).game.imageUrl =
      Option.some "cat.png" :=
  C7_image_applied_unconditionally roundR1 "cat.png" (by decide)

/-- C8 counterexample: the contract-violating Puzzle-Source value `rawBad`
(missing position 5 in a 3-letter word) is not treated as an Error: the
out-of-range position is silently filtered away, the round proceeds to the
playing state with a puzzle that has NO missing positions, and an immediate
verify even reports it solved. -/
theorem C8_counterexample_sanitize_proceeds :
    (startRoundSuccess idleState rawBad (fun _ => 'Z') 0 id).game.status =
      Status.playing ∧
    (startRoundSuccess idleState rawBad (fun _ => 'Z') 0 id).game.puzzle =
      Option.some { word := ['C', 'A', 'T'], missingIndices := [], hint := "h" } ∧
    (checkAnswer
      (startRoundSuccess idleState rawBad (fun _ => 'Z') 0 id)).game.status =
      Status.success := by
  decide

/-- C8 (amended): contract violations from the Puzzle Source are sanitized,
not rejected: for every returned value the round reaches the playing state
(never the error state), with the word uppercased and exactly the in-range
missing positions kept — possibly none, in which case the invalid puzzle is
played rather than refused. -/
theorem C8_sanitized_not_rejected (st : AppState) (raw : PuzzleData)
    (rand : Nat → Char) (now : Nat) (shuffle : List Choice → List Choice) :
    (startRoundSuccess st raw rand now shuffle).game.status = Status.playing ∧
    (startRoundSuccess st raw rand now shuffle).game.puzzle =
      Option.some (sanitizePuzzle raw) ∧
    ∀ i ∈ (sanitizePuzzle raw).missingIndices,
      i < (sanitizePuzzle raw).word.length := by
  refine ⟨rfl, rfl, ?_⟩
  intro i hi
  simp only [sanitizePuzzle, List.mem_filter] at hi
  simpa [sanitizePuzzle] using hi.2

/-- A Puzzle-Source value with one in-range and one out-of-range missing
position. -/
def rawMixed : PuzzleData :=
  { word := ['c', 'a', 't'], missingIndices := [1, 5], hint := "h" }

/-- Witness for the amended C8: the mixed value is sanitized — position 5
dropped, position 1 kept in bounds — and the round proceeds to playing. -/
theorem C8_sanitized_not_rejected_witness :
    (startRoundSuccess idleState rawMixed (fun _ => 'Z') 0 id).game.status =
      Status.playing ∧
    (startRoundSuccess idleState rawMixed (fun _ => 'Z') 0 id).game.puzzle =
      Option.some (sanitizePuzzle rawMixed) ∧
    1 < (sanitizePuzzle rawMixed).word.length := by
  have h := C8_sanitized_not_rejected idleState rawMixed (fun _ => 'Z') 0 id
  exact ⟨h.1, h.2.1, h.2.2 1 (by decide)⟩

/-- C9: the verifier is total on assignments that bind a tile id absent from
the round's pool: the lookup of the missing tile yields no letter
(`choice?.char` is `undefined`) and the verify result is incorrect, with no
failure. -/
theorem C9_missing_tile_incorrect (p : PuzzleData) (choices : List Choice)
    (answers : Assignment) (slot : Nat) (cid : String)
    (hslot : slot ∈ p.missingIndices)
    (hbound : lookupSlot answers slot = Option.some cid)
    (habsent : ∀ t ∈ choices, t.id ≠ cid)
    (hin : slot < p.word.length) :
    boundLetter choices answers slot = Option.none ∧
    isCorrect p choices answers = false := by
  have hfind : choices.find? (fun c => c.id == cid) = Option.none := by
    rw [List.find?_eq_none]
    intro t ht
    simp [habsent t ht]
  have hb : boundLetter choices answers slot = Option.none := by
    simp [boundLetter, findChoice, hbound, hfind]
  refine ⟨hb, ?_⟩
  obtain ⟨w, hw⟩ : ∃ w, p.word.get? slot = Option.some w :=
    ⟨p.word.get ⟨slot, hin⟩, List.get?_eq_get hin⟩
  apply Bool.eq_false_iff.mpr
  intro hall
  have hcomp := (isCorrect_iff p choices answers).mp hall slot hslot
  rw [hb, hw] at hcomp
  exact Option.noConfusion hcomp

/-- Witness for C9: slot 1 of the CAT puzzle bound to the unknown id zz. -/
theorem C9_missing_tile_incorrect_witness :
    boundLetter [tA, tX] [(1, "zz")] 1 = Option.none ∧
    isCorrect pCAT [tA, tX] [(1, "zz")] = false :=
  C9_missing_tile_incorrect pCAT [tA, tX] [(1, "zz")] 1 "zz" (by decide)
    (by decide) (by decide) (by decide)

/-! ### Helper lemmas about slot lookup -/

theorem lookupSlot_removeKey_self (a : Assignment) (k : Nat) :
    lookupSlot (removeKey a k) k = Option.none := by
  induction a with
  | nil => rfl
  | cons p rest ih =>
    cases p with
    | mk k' v' =>
      simp only [removeKey, List.filter_cons] at ih ⊢
      by_cases h : (k' == k) = true
      · simp [h]
        exact ih
      · simp only [h, Bool.not_false]
        simp only [Bool.not_eq_true] at h
        simp [lookupSlot, h]
        exact ih

theorem lookupSlot_append_of_none (l₁ l₂ : Assignment) (k : Nat)
    (h : lookupSlot l₁ k = Option.none) :
    lookupSlot (l₁ ++ l₂) k = lookupSlot l₂ k := by
  induction l₁ with
  | nil => rfl
  | cons p rest ih =>
    cases p with
    | mk k' v' =>
      simp only [lookupSlot, List.cons_append] at h ⊢
      by_cases hp : (k' == k) = true
      · rw [if_pos hp] at h
        exact Option.noConfusion h
      · rw [if_neg hp] at h ⊢
        exact ih h

theorem lookupSlot_place_self (a : Assignment) (k : Nat) (v : String) :
    lookupSlot (placeLetterAnswers a k v) k = Option.some v := by
  unfold placeLetterAnswers setKey
  rw [lookupSlot_append_of_none _ _ _ (lookupSlot_removeKey_self _ k)]
  simp [lookupSlot]

/-- C10: slot-click dispatch — with a (truthy) selected tile the click places
that tile into the slot, displacing any previous occupant, and this takes
priority over removal; with no selection, a click on a filled slot removes
its occupant; with no selection a click on an empty slot changes nothing. -/
theorem C10_slot_click (st : AppState) (slot : Nat) :
    (∀ t, st.selectedChoiceId = Option.some t → t ≠ "" →
      handleSlotClick st slot = placeLetter st slot t ∧
      lookupSlot (handleSlotClick st slot).game.userAnswers slot =
        Option.some t) ∧
    (st.selectedChoiceId = Option.none →
      ∀ v, lookupSlot st.game.userAnswers slot = Option.some v → v ≠ "" →
        handleSlotClick st slot = removeLetter st slot ∧
        lookupSlot (handleSlotClick st slot).game.userAnswers slot =
          Option.none) ∧
    (st.selectedChoiceId = Option.none →
      lookupSlot st.game.userAnswers slot = Option.none →
      handleSlotClick st slot = st) := by
  refine ⟨?_, ?_, ?_⟩
  · intro t hsel ht
    have htr : truthyStr (Option.some t) = true := by
      simp [truthyStr, ht]
    have heq : handleSlotClick st slot = placeLetter st slot t := by
      simp [handleSlotClick, hsel, htr]
    refine ⟨heq, ?_⟩
    rw [heq]
    exact lookupSlot_place_self _ slot t
  · intro hsel v hv hvne
    have htr : truthyStr st.selectedChoiceId = false := by
      simp [truthyStr, hsel]
    have htr' : truthyStr (lookupSlot st.game.userAnswers slot) = true := by
      simp [truthyStr, hv, hvne]
    have heq : handleSlotClick st slot = removeLetter st slot := by
      simp [handleSlotClick, htr, htr']
    refine ⟨heq, ?_⟩
    rw [heq]
    exact lookupSlot_removeKey_self _ slot
  · intro hsel hv
    simp [handleSlotClick, truthyStr, hsel, hv]

/-- A state with tile t2 occupying slot 1 and tile t1 selected. -/
def stSel : AppState :=
  { gameCAT [(1, "t2")] with selectedChoiceId := Option.some "t1" }

/-- Witness for C10: all three branches at concrete states — selection
priority (placing t1 displaces t2), removal of the occupant without a
selection, and the no-op on an empty slot. -/
theorem C10_slot_click_witness :
    (handleSlotClick stSel 1 = placeLetter stSel 1 "t1" ∧
      lookupSlot (handleSlotClick stSel 1).game.userAnswers 1 =
        Option.some "t1") ∧
    (handleSlotClick (gameCAT [(1, "t2")]) 1 =
        removeLetter (gameCAT [(1, "t2")]) 1 ∧
      lookupSlot (handleSlotClick (gameCAT [(1, "t2")]) 1).game.userAnswers 1 =
        Option.none) ∧
    handleSlotClick (gameCAT []) 1 = gameCAT [] := by
  refine ⟨?_, ?_, ?_⟩
  · exact (C10_slot_click stSel 1).1 "t1" rfl (by decide)
  · exact (C10_slot_click (gameCAT [(1, "t2")]) 1).2.1 rfl "t2" (by decide)
      (by decide)
  · exact (C10_slot_click (gameCAT []) 1).2.2 rfl (by decide)
